import Mathlib

/-!
Shallow embedding of the Flight_Optimization scraper (config.py, main.py,
main1.py).  Pure text-processing helpers model the Python string and number
primitives the source leans on (`str.split`, `str.replace`, `str.strip`,
`float`, `int`, the two `re` patterns); browser interaction is modelled by
explicit page-state records, and every Python expression that can raise is
embedded as a function into `Except PyErr _`.  Prices are modelled as exact
decimals `mant / 10 ^ exp`: each price literal the program parses is a plain
decimal string, which Python's `float` converts exactly on the magnitudes
involved here, so this value model is faithful on the reachable inputs.
-/

/-- Numeric value of a list of decimal digit characters, most significant
digit first. -/
def digitsVal (l : List Char) : Nat :=
  l.foldl (fun a c => 10 * a + (c.toNat - 48)) 0

/-- Split a character list at every occurrence of `sep` (separators deleted,
empty segments kept), as Python `str.split(sep)` does. -/
def splitOnChar (sep : Char) : List Char → List (List Char)
  | [] => [[]]
  | c :: t =>
    if c = sep then [] :: splitOnChar sep t
    else
      match splitOnChar sep t with
      | [] => [[c]]
      | h :: r => (c :: h) :: r

/-- An exact decimal number `mant / 10 ^ exp`, the value model for the
prices the program parses. -/
structure Dec where
  mant : Int
  exp : Nat
deriving DecidableEq, Repr

/-- The rational value of a `Dec`. -/
def Dec.toRat (d : Dec) : ℚ := (d.mant : ℚ) / (10 : ℚ) ^ d.exp

/-- Python `float` on an unsigned literal: digit characters with at most one
decimal point and at least one digit overall. -/
def parseFloatCore (l : List Char) : Option Dec :=
  match splitOnChar '.' l with
  | [ip] =>
    if ip ≠ [] ∧ ip.all Char.isDigit then some ⟨digitsVal ip, 0⟩ else none
  | [ip, fp] =>
    if (ip ≠ [] ∨ fp ≠ []) ∧ ip.all Char.isDigit ∧ fp.all Char.isDigit then
      some ⟨digitsVal ip * 10 ^ fp.length + digitsVal fp, fp.length⟩
    else none
  | _ => none

/-- Python `float` restricted to plain decimal literals with an optional
sign; exponent forms, infinities and surrounding whitespace never occur on
the strings this program feeds to `float`. -/
def parseFloat (l : List Char) : Option Dec :=
  match l with
  | '-' :: t => (parseFloatCore t).map (fun d => ⟨-d.mant, d.exp⟩)
  | '+' :: t => parseFloatCore t
  | _ => parseFloatCore l

/-- Python `int` on an unsigned decimal literal. -/
def parseIntCore (l : List Char) : Option Int :=
  if l ≠ [] ∧ l.all Char.isDigit then some (digitsVal l : Int) else none

/-- Python `int` on a whitespace-free token, with an optional sign. -/
def parseInt (l : List Char) : Option Int :=
  match l with
  | '-' :: t => (parseIntCore t).map (fun n => -n)
  | '+' :: t => parseIntCore t
  | _ => parseIntCore l

/-- Worker for `splitWs`; `acc` holds the current token reversed. -/
def splitWsAux : List Char → List Char → List (List Char)
  | [], acc => if acc = [] then [] else [acc.reverse]
  | c :: t, acc =>
    if c.isWhitespace then
      if acc = [] then splitWsAux t [] else acc.reverse :: splitWsAux t []
    else splitWsAux t (c :: acc)

/-- Python `str.split()` with no argument: maximal whitespace-free tokens,
empty tokens dropped. -/
def splitWs (l : List Char) : List (List Char) := splitWsAux l []

/-- Does the second list start with the first one? -/
def beginsWith : List Char → List Char → Bool
  | [], _ => true
  | _ :: _, [] => false
  | a :: as, b :: bs => a == b && beginsWith as bs

/-- Does `needle` occur contiguously inside the second list? -/
def hasSub (needle : List Char) : List Char → Bool
  | [] => needle.isEmpty
  | c :: t => beginsWith needle (c :: t) || hasSub needle t

/-- Python substring test `needle in hay`. -/
def strContains (hay needle : String) : Bool := hasSub needle.data hay.data

/-- Python `s.replace("USD", "")`: delete non-overlapping occurrences,
scanning left to right. -/
def removeUSD : List Char → List Char
  | 'U' :: 'S' :: 'D' :: t => removeUSD t
  | c :: t => c :: removeUSD t
  | [] => []

/-- Python `str.strip()`: drop whitespace from both ends. -/
def pyStrip (l : List Char) : List Char :=
  ((l.dropWhile Char.isWhitespace).reverse.dropWhile Char.isWhitespace).reverse

/-- Python regex `\w` on the ASCII range the labels use: letters, digits and
the underscore. -/
def isWordChar (c : Char) : Bool := c.isAlphanum || c == '_'

/-- The Python exception kinds the embedded code can raise. -/
inductive PyErr
  | timeoutErr
  | keyErr
  | indexErr
  | valueErr
  | noSuchElementErr
deriving DecidableEq, Repr

/-- Python `dict[key]`: raises `KeyError` when the key is missing. -/
def getField : Option α → Except PyErr α
  | some a => .ok a
  | none => .error .keyErr

/-- Selenium `find_element` for a card sub-element: raises when absent. -/
def elemText : Option String → Except PyErr String
  | some s => .ok s
  | none => .error .noSuchElementErr

/-- Python `list[0]`: `IndexError` on an empty list. -/
def headE : List α → Except PyErr α
  | [] => .error .indexErr
  | a :: _ => .ok a

/-- Log lines the two scripts can emit, as far as the claims observe them. -/
inductive LogEvent
  | skipMsg (airline : String)
  | errMsg (who : String)
  | warnCity (city : String)
  | noData
deriving DecidableEq, Repr

namespace Config

/-- config.py `DEPARTURE_DATES`. -/
def DEPARTURE_DATES : List String := ["2025-07-06", "2025-07-07"]

/-- config.py `RETURN_DATE`. -/
def RETURN_DATE : String := "2025-07-09"

/-- config.py `CURRENCY`. -/
def CURRENCY : String := "USD"

end Config

namespace Main

/-- One attempt of `re.search(r"\((\w{3})\)", city)` at the head of the
list: an opening parenthesis, three word characters, a closing
parenthesis. -/
def matchAt (l : List Char) : Option (List Char) :=
  match l with
  | '(' :: c1 :: c2 :: c3 :: ')' :: _ =>
    if isWordChar c1 && isWordChar c2 && isWordChar c3 then some [c1, c2, c3]
    else none
  | _ => none

/-- `re.search` for the fixed-width pattern: leftmost match wins. -/
def searchCode : List Char → Option (List Char)
  | [] => none
  | c :: t =>
    match matchAt (c :: t) with
    | some r => some r
    | none => searchCode t

/-- main.py `clean_code`: `'Johannesburg (JNB)' → 'jnb'`, `None` when the
pattern does not occur. -/
def clean_code (city : String) : Option String :=
  (searchCode city.data).map (fun l => ⟨l.map Char.toLower⟩)

/-- Python `s.replace("-", "")`. -/
def stripDashes (s : String) : String := ⟨s.data.filter (fun c => c != '-')⟩

/-- main.py `make_url`: the destination path segment is the fixed literal
`acc`. -/
def make_url (origin dep_date ret_date : String) (pax : Int) : String :=
  "https://www.skyscanner.com/transport/flights/" ++ origin ++ "/acc/"
    ++ stripDashes dep_date ++ "/" ++ stripDashes ret_date
    ++ "/?adults=" ++ toString pax ++ "&currency=" ++ Config.CURRENCY
    ++ "&preferdirects=false"

/-- What the rendered listing page offers main.py `fetch_price`: whether
the bounded wait for the price span times out, the price text, and the
airline-name element. -/
structure FetchPage where
  timeout : Bool
  priceText : String
  airlineMissing : Bool
  airlineName : String
deriving DecidableEq

/-- main.py price normalization:
`float(re.sub(r"[^\d\.]", "", price_text))`. -/
def fetchPriceVal (s : String) : Option Dec :=
  parseFloat (s.data.filter (fun c => c.isDigit || c == '.'))

/-- main.py `fetch_price`: wait for the price span (timeout possible),
normalize the price, then read the airline name. -/
def fetch_price (pg : FetchPage) : Except PyErr (String × Dec) :=
  if pg.timeout then .error .timeoutErr
  else
    match fetchPriceVal pg.priceText with
    | none => .error .valueErr
    | some d =>
      if pg.airlineMissing then .error .noSuchElementErr
      else .ok (⟨pyStrip pg.airlineName.data⟩, d)

/-- One row appended to `rows` in main.py `main`. -/
structure MainRow where
  city : String
  airline : String
  arriveDate : String
  returnDate : String
  fareType : String
  seats : Int
  cost : Dec
deriving DecidableEq

/-- Accumulated observable state of the iterate phase of main.py `main`:
quote rows, the URLs navigated to, log lines, and the next index into the
page environment. -/
structure LoopOut where
  rows : List MainRow
  urls : List String
  logs : List LogEvent
  kEnd : Nat
deriving DecidableEq

/-- The inner date loop of main.py `main` for one city: each attempt builds
the quote URL, fetches under the per-attempt `try/except`, and either
appends a row or logs the failure and continues. -/
def cityDates (city code : String) (pax : Int) (env : Nat → FetchPage) :
    List String → Nat → LoopOut
  | [], k => ⟨[], [], [], k⟩
  | dep :: ds, k =>
    let url := make_url code dep Config.RETURN_DATE pax
    let rest := cityDates city code pax env ds (k + 1)
    match fetch_price (env k) with
    | .ok (airline, price) =>
      ⟨⟨city, airline, dep, Config.RETURN_DATE, "WebEco", pax, price⟩ :: rest.rows,
       url :: rest.urls, rest.logs, rest.kEnd⟩
    | .error _ =>
      ⟨rest.rows, url :: rest.urls, .errMsg city :: rest.logs, rest.kEnd⟩

/-- The city loop of main.py `main`: skip Accra labels, skip cities whose
label yields no code (with a warning), clamp the headcount with
`min(headcount, 9)`, then run the date loop. -/
def mainLoop (env : Nat → FetchPage) : List (String × Int) → Nat → LoopOut
  | [], k => ⟨[], [], [], k⟩
  | (city, hc) :: rest, k =>
    if strContains city "Accra" then mainLoop env rest k
    else
      match clean_code city with
      | none =>
        let r := mainLoop env rest k
        ⟨r.rows, r.urls, .warnCity city :: r.logs, r.kEnd⟩
      | some code =>
        let pax := min hc 9
        let cur := cityDates city code pax env Config.DEPARTURE_DATES k
        let r := mainLoop env rest cur.kEnd
        ⟨cur.rows ++ r.rows, cur.urls ++ r.urls, cur.logs ++ r.logs, r.kEnd⟩

/-- The observable outcome of one run of main.py `main`. -/
structure MainResult where
  rows : List MainRow
  urls : List String
  logs : List LogEvent
  quitCount : Nat
  noDataErr : Bool
  wroteSheet : Bool
deriving DecidableEq

/-- main.py `main`: iterate the roster inside `try/finally driver.quit()`,
then either report "No data fetched" and skip the workbook write, or
overwrite the FlightQuotes sheet with the collected rows. -/
def main (cities : List (String × Int)) (env : Nat → FetchPage) : MainResult :=
  let out := mainLoop env cities 0
  if out.rows = [] then ⟨out.rows, out.urls, out.logs, 1, true, false⟩
  else ⟨out.rows, out.urls, out.logs, 1, false, true⟩

end Main

namespace Main1

/-- main1.py ethiopian price normalization:
`float(price_txt.split()[-1].replace(",", ""))`. -/
def ethPrice (s : String) : Except PyErr Dec :=
  match (splitWs s.data).getLast? with
  | none => .error .indexErr
  | some tok =>
    match parseFloat (tok.filter (fun c => c != ',')) with
    | none => .error .valueErr
    | some d => .ok d

/-- `ethPrice` with the exception collapsed, for value-level statements. -/
def ethPriceVal (s : String) : Option Dec := (ethPrice s).toOption

/-- main1.py ethiopian stops normalization: `int(stops_txt.split()[0])`. -/
def ethStops (s : String) : Except PyErr Int :=
  match splitWs s.data with
  | [] => .error .indexErr
  | tok :: _ =>
    match parseInt tok with
    | none => .error .valueErr
    | some n => .ok n

/-- `ethStops` with the exception collapsed. -/
def ethStopsVal (s : String) : Option Int := (ethStops s).toOption

/-- main1.py kenya price normalization:
`float(price_txt.replace("USD", "").replace(",", "").strip())`. -/
def kenPrice (s : String) : Except PyErr Dec :=
  match parseFloat (pyStrip ((removeUSD s.data).filter (fun c => c != ','))) with
  | none => .error .valueErr
  | some d => .ok d

/-- `kenPrice` with the exception collapsed. -/
def kenPriceVal (s : String) : Option Dec := (kenPrice s).toOption

/-- main1.py kenya stops normalization:
`0 if "Non-stop" in stops else int(stops.split()[0])`. -/
def kenStops (s : String) : Except PyErr Int :=
  if strContains s "Non-stop" then .ok 0
  else
    match splitWs s.data with
    | [] => .error .indexErr
    | tok :: _ =>
      match parseInt tok with
      | none => .error .valueErr
      | some n => .ok n

/-- `kenStops` with the exception collapsed. -/
def kenStopsVal (s : String) : Option Int := (kenStops s).toOption

/-- One normalized quote dict `{price, stops, duration}`. -/
structure Quote where
  price : Dec
  stops : Int
  duration : String
deriving DecidableEq

/-- One rendered result card; a `none` sub-element makes `find_element`
raise. -/
structure Card where
  priceText : Option String
  stopsText : Option String
  durationText : Option String
deriving DecidableEq

/-- The rendered result page an adapter sees: whether the bounded wait for
the results container times out, and the result cards present. -/
structure Page where
  timeout : Bool
  cards : List Card
deriving DecidableEq

/-- An adapter call's observable outcome: the URLs navigated to and either
the scraped quote list or the Python exception escaping the function. -/
structure AdapterOut where
  visited : List String
  result : Except PyErr (List Quote)

/-- One route object of routes.json; a `none` field models a missing key. -/
structure RouteJson where
  id : Option String
  origin : Option String
  dest : Option String
  depart : Option (List String)
  ret : Option String
  paxAdults : Option Int
  airlines : Option (List String)
deriving DecidableEq

/-- main1.py ethiopian deep-link URL; the adults parameter is the raw
`r['pax']['adults']` value, with no clamping. -/
def eth_url (origin dest dep ret : String) (adults : Int) : String :=
  "https://book.ethiopianairlines.com/et/booking/flight-results?tripType=RT&origin="
    ++ origin ++ "&destination=" ++ dest ++ "&departureDate=" ++ dep
    ++ "&returnDate=" ++ ret ++ "&adults=" ++ toString adults ++ "&currency=USD"

/-- main1.py ethiopian card extraction: price, stops, duration, in source
order; the first failure aborts the whole call. -/
def ethParseCard (c : Card) : Except PyErr Quote := do
  let pt ← elemText c.priceText
  let price ← ethPrice pt
  let st ← elemText c.stopsText
  let stops ← ethStops st
  let dur ← elemText c.durationText
  pure ⟨price, stops, dur⟩

/-- main1.py `search_ethiopian`: read the route fields (raising `KeyError`
or `IndexError` on malformed routes), open the deep link, wait for the
result cards (raising on timeout), then scrape the first three cards. -/
def search_ethiopian (r : RouteJson) (page : Page) : AdapterOut :=
  match (do
    let origin ← getField r.origin
    let dest ← getField r.dest
    let ds ← getField r.depart
    let dep ← headE ds
    let ret ← getField r.ret
    let adults ← getField r.paxAdults
    pure (eth_url origin dest dep ret adults) : Except PyErr String) with
  | .error e => ⟨[], .error e⟩
  | .ok url =>
    if page.timeout then ⟨[url], .error .timeoutErr⟩
    else ⟨[url], (page.cards.take 3).mapM ethParseCard⟩

/-- main1.py kenya card extraction. -/
def kenParseCard (c : Card) : Except PyErr Quote := do
  let pt ← elemText c.priceText
  let price ← kenPrice pt
  let st ← elemText c.stopsText
  let stops ← kenStops st
  let dur ← elemText c.durationText
  pure ⟨price, stops, dur⟩

/-- main1.py `search_kenya`: form-driven; the booking page is opened first,
the field reads can raise `KeyError`/`IndexError`, the bounded waits can
time out, then the first three result cards are scraped. -/
def search_kenya (r : RouteJson) (page : Page) : AdapterOut :=
  let visited := ["https://www.kenya-airways.com/en-gh/book-a-flight"]
  match (do
    let _ ← getField r.origin
    let _ ← getField r.dest
    let ds ← getField r.depart
    let _ ← headE ds
    let _ ← getField r.ret
    pure () : Except PyErr Unit) with
  | .error e => ⟨visited, .error e⟩
  | .ok _ =>
    if page.timeout then ⟨visited, .error .timeoutErr⟩
    else ⟨visited, (page.cards.take 3).mapM kenParseCard⟩

/-- main1.py stub `search_asky`: returns an empty list. -/
def search_asky (_r : RouteJson) (_page : Page) : AdapterOut := ⟨[], .ok []⟩

/-- main1.py stub `search_africaworld`. -/
def search_africaworld (_r : RouteJson) (_page : Page) : AdapterOut := ⟨[], .ok []⟩

/-- main1.py stub `search_turkish`. -/
def search_turkish (_r : RouteJson) (_page : Page) : AdapterOut := ⟨[], .ok []⟩

/-- main1.py stub `search_qatar`. -/
def search_qatar (_r : RouteJson) (_page : Page) : AdapterOut := ⟨[], .ok []⟩

/-- main1.py stub `search_delta`. -/
def search_delta (_r : RouteJson) (_page : Page) : AdapterOut := ⟨[], .ok []⟩

/-- Names for the adapter functions of main1.py, used as registry values. -/
inductive AdapterTag
  | kenya
  | asky
  | africaworld
  | turkish
  | qatar
  | delta
  | ethiopian
deriving DecidableEq, Repr

/-- main1.py `AIRLINE_FUNCS` after the single `update` call. -/
def AIRLINE_FUNCS : List (String × AdapterTag) :=
  [("Kenya Airways", .kenya), ("ASKY", .asky),
   ("Africa World Airlines", .africaworld), ("Turkish Airlines", .turkish),
   ("Qatar Airways", .qatar), ("Delta Air Lines", .delta)]

/-- Python `AIRLINE_FUNCS.get(airline)`. -/
def lookupFunc (name : String) : Option AdapterTag :=
  (AIRLINE_FUNCS.find? (fun p => p.1 == name)).map (fun p => p.2)

/-- Dispatch an `AdapterTag` to the adapter function it names. -/
def applyAdapter : AdapterTag → RouteJson → Page → AdapterOut
  | .kenya => search_kenya
  | .asky => search_asky
  | .africaworld => search_africaworld
  | .turkish => search_turkish
  | .qatar => search_qatar
  | .delta => search_delta
  | .ethiopian => search_ethiopian

/-- One CSV data row of flight_quotes.csv. -/
structure CsvRow where
  route : String
  airline : String
  price : Dec
  stops : Int
  duration : String
deriving DecidableEq

/-- Observable effects of part of the iterate phase of main1.py `run`:
CSV rows appended, log lines, the adapter functions invoked, and the
uncaught exception (if one escapes the per-call boundary). -/
structure StepOut where
  rows : List CsvRow
  logs : List LogEvent
  invoked : List AdapterTag
  err : Option PyErr
deriving DecidableEq

/-- One `(route, airline)` iteration of the inner loop of main1.py `run`:
unregistered airlines are skipped with the "no parser yet" message; a
registered adapter runs under the `try/except` boundary, whose handler
itself reads `r['id']` and so can raise `KeyError`. -/
def stepAirline (r : RouteJson) (airline : String) (page : Page) : StepOut :=
  match lookupFunc airline with
  | none => ⟨[], [.skipMsg airline], [], none⟩
  | some tag =>
    let out := applyAdapter tag r page
    let handled : StepOut :=
      match r.id with
      | some _ => ⟨[], [.errMsg airline], [tag], none⟩
      | none => ⟨[], [], [tag], some .keyErr⟩
    match out.result with
    | .error _ => handled
    | .ok quotes =>
      match (quotes.take 3).mapM (fun q => do
          let o ← getField r.origin
          let d ← getField r.dest
          pure (⟨o ++ "-" ++ d, airline, q.price, q.stops, q.duration⟩ : CsvRow)) with
      | .ok rows => ⟨rows, [], [tag], none⟩
      | .error _ => handled

/-- The airline loop of main1.py `run` for one route; an error left
uncaught by the boundary stops the whole iterate phase. -/
def stepAirlines (r : RouteJson) (env : Nat → Page) :
    List String → Nat → StepOut × Nat
  | [], k => (⟨[], [], [], none⟩, k)
  | a :: rest, k =>
    let s := stepAirline r a (env k)
    let k1 := if (lookupFunc a).isSome then k + 1 else k
    match s.err with
    | some e => (⟨s.rows, s.logs, s.invoked, some e⟩, k1)
    | none =>
      let s2 := stepAirlines r env rest k1
      (⟨s.rows ++ s2.1.rows, s.logs ++ s2.1.logs, s.invoked ++ s2.1.invoked, s2.1.err⟩,
       s2.2)

/-- The route loop of main1.py `run`; the access `r["airlines"]` sits
outside the `try` and raises `KeyError` on a route without that key. -/
def runRoutes (env : Nat → Page) : List RouteJson → Nat → StepOut × Nat
  | [], k => (⟨[], [], [], none⟩, k)
  | r :: rest, k =>
    match r.airlines with
    | none => (⟨[], [], [], some .keyErr⟩, k)
    | some as =>
      let s := (stepAirlines r env as k).1
      let k1 := (stepAirlines r env as k).2
      match s.err with
      | some _ => (s, k1)
      | none =>
        let s2 := runRoutes env rest k1
        (⟨s.rows ++ s2.1.rows, s.logs ++ s2.1.logs, s.invoked ++ s2.1.invoked, s2.1.err⟩,
         s2.2)

/-- The observable outcome of one run of main1.py `run`. -/
structure RunResult where
  headerWritten : Bool
  csvRows : List CsvRow
  logs : List LogEvent
  invoked : List AdapterTag
  quitCount : Nat
  uncaught : Option PyErr
deriving DecidableEq

/-- main1.py `run`: truncate flight_quotes.csv to its header row, launch
the driver, iterate routes × airlines, and call `driver.quit()` only when
the loop finishes without an uncaught exception — there is no
`try/finally` around the iterate phase. -/
def run (routes : List RouteJson) (env : Nat → Page) : RunResult :=
  let s := (runRoutes env routes 0).1
  ⟨true, s.rows, s.logs, s.invoked, if s.err.isNone then 1 else 0, s.err⟩

/-- A route object carrying every key the two real adapters and the
boundary handler read, with a non-empty departure list. -/
def wfRoute (r : RouteJson) : Bool :=
  r.id.isSome && r.origin.isSome && r.dest.isSome &&
  (match r.depart with
   | some (_ :: _) => true
   | _ => false) &&
  r.ret.isSome && r.paxAdults.isSome

end Main1

section TextLemmas

theorem splitOnChar_ne_nil (sep : Char) (l : List Char) : splitOnChar sep l ≠ [] := by
  induction l with
  | nil => simp [splitOnChar]
  | cons c t ih =>
    simp only [splitOnChar]
    split
    · simp
    · cases h : splitOnChar sep t <;> simp

theorem mem_of_mem_splitOnChar (sep c : Char) :
    ∀ (l p : List Char), p ∈ splitOnChar sep l → c ∈ p → c ∈ l := by
  intro l
  induction l with
  | nil =>
    intro p hp hc
    simp only [splitOnChar, List.mem_singleton] at hp
    subst hp
    simp at hc
  | cons a t ih =>
    intro p hp hc
    simp only [splitOnChar] at hp
    by_cases ha : a = sep
    · rw [if_pos ha] at hp
      rcases List.mem_cons.mp hp with h | h
      · subst h; simp at hc
      · exact List.mem_cons_of_mem _ (ih p h hc)
    · rw [if_neg ha] at hp
      cases hs : splitOnChar sep t with
      | nil => exact absurd hs (splitOnChar_ne_nil sep t)
      | cons h0 r =>
        rw [hs] at hp
        rcases List.mem_cons.mp hp with h | h
        · subst h
          rcases List.mem_cons.mp hc with h' | h'
          · subst h'; exact List.mem_cons_self _ _
          · refine List.mem_cons_of_mem _ (ih h0 ?_ h')
            rw [hs]; exact List.mem_cons_self _ _
        · refine List.mem_cons_of_mem _ (ih p ?_ hc)
          rw [hs]; exact List.mem_cons_of_mem _ h

theorem mem_of_mem_splitWsAux (c : Char) :
    ∀ (l acc t : List Char), t ∈ splitWsAux l acc → c ∈ t → c ∈ l ∨ c ∈ acc := by
  intro l
  induction l with
  | nil =>
    intro acc t ht hc
    simp only [splitWsAux] at ht
    split at ht
    · simp at ht
    · rw [List.mem_singleton] at ht
      subst ht
      exact Or.inr (List.mem_reverse.mp hc)
  | cons a l' ih =>
    intro acc t ht hc
    simp only [splitWsAux] at ht
    split at ht
    · split at ht
      · rcases ih [] t ht hc with h | h
        · exact Or.inl (List.mem_cons_of_mem _ h)
        · simp at h
      · rcases List.mem_cons.mp ht with h | h
        · subst h
          exact Or.inr (List.mem_reverse.mp hc)
        · rcases ih [] t h hc with h' | h'
          · exact Or.inl (List.mem_cons_of_mem _ h')
          · simp at h'
    · rcases ih (a :: acc) t ht hc with h | h
      · exact Or.inl (List.mem_cons_of_mem _ h)
      · rcases List.mem_cons.mp h with h' | h'
        · subst h'; exact Or.inl (List.mem_cons_self _ _)
        · exact Or.inr h'

theorem mem_of_mem_splitWs {c : Char} {l t : List Char}
    (ht : t ∈ splitWs l) (hc : c ∈ t) : c ∈ l := by
  rcases mem_of_mem_splitWsAux c l [] t ht hc with h | h
  · exact h
  · simp at h

theorem mem_of_mem_pyStrip {c : Char} {l : List Char} (h : c ∈ pyStrip l) : c ∈ l := by
  unfold pyStrip at h
  have h1 := List.mem_reverse.mp h
  have h2 := (List.dropWhile_sublist _).mem h1
  have h3 := List.mem_reverse.mp h2
  exact (List.dropWhile_sublist _).mem h3

theorem mem_of_mem_removeUSD {c : Char} :
    ∀ {l : List Char}, c ∈ removeUSD l → c ∈ l := by
  intro l
  induction l using removeUSD.induct with
  | case1 t ih =>
    intro h
    simp only [removeUSD] at h
    exact List.mem_cons_of_mem _ (List.mem_cons_of_mem _ (List.mem_cons_of_mem _ (ih h)))
  | case2 x t _ ih =>
    intro h
    simp only [removeUSD] at h
    rcases List.mem_cons.mp h with h | h
    · subst h; exact List.mem_cons_self _ _
    · exact List.mem_cons_of_mem _ (ih h)
  | case3 =>
    intro h
    simp [removeUSD] at h

end TextLemmas

section ParseLemmas

theorem parseFloatCore_none_of_noDigits {l : List Char}
    (h : ∀ c ∈ l, c.isDigit = false) : parseFloatCore l = none := by
  have hmem : ∀ p ∈ splitOnChar '.' l, ∀ c ∈ p, c.isDigit = false := by
    intro p hp c hc
    exact h c (mem_of_mem_splitOnChar '.' c l p hp hc)
  unfold parseFloatCore
  split
  · next ip heq =>
    rw [if_neg]
    rintro ⟨hne, hall⟩
    rcases ip with _ | ⟨c, t⟩
    · exact hne rfl
    · have hd := List.all_eq_true.mp hall c (List.mem_cons_self _ _)
      have hf := hmem (c :: t) (by rw [heq]; exact List.mem_cons_self _ _) c
        (List.mem_cons_self _ _)
      rw [hf] at hd
      exact Bool.false_ne_true hd
  · next ip fp heq =>
    rw [if_neg]
    rintro ⟨hor, hall1, hall2⟩
    have hp1 : ip ∈ splitOnChar '.' l := by rw [heq]; exact List.mem_cons_self _ _
    have hp2 : fp ∈ splitOnChar '.' l := by
      rw [heq]; exact List.mem_cons_of_mem _ (List.mem_cons_self _ _)
    rcases hor with hne | hne
    · rcases ip with _ | ⟨c, t⟩
      · exact hne rfl
      · have hd := List.all_eq_true.mp hall1 c (List.mem_cons_self _ _)
        rw [hmem _ hp1 c (List.mem_cons_self _ _)] at hd
        exact Bool.false_ne_true hd
    · rcases fp with _ | ⟨c, t⟩
      · exact hne rfl
      · have hd := List.all_eq_true.mp hall2 c (List.mem_cons_self _ _)
        rw [hmem _ hp2 c (List.mem_cons_self _ _)] at hd
        exact Bool.false_ne_true hd
  · rfl

theorem parseFloat_none_of_noDigits {l : List Char}
    (h : ∀ c ∈ l, c.isDigit = false) : parseFloat l = none := by
  unfold parseFloat
  split
  · next t =>
    rw [parseFloatCore_none_of_noDigits (fun c hc => h c (List.mem_cons_of_mem _ hc))]
    rfl
  · next t =>
    exact parseFloatCore_none_of_noDigits (fun c hc => h c (List.mem_cons_of_mem _ hc))
  · exact parseFloatCore_none_of_noDigits h

theorem parseFloatCore_mant_nonneg {l : List Char} {d : Dec}
    (h : parseFloatCore l = some d) : 0 ≤ d.mant := by
  unfold parseFloatCore at h
  split at h
  · split at h
    · injection h with h'
      subst h'
      exact Int.natCast_nonneg _
    · exact absurd h (by simp)
  · split at h
    · injection h with h'
      subst h'
      show (0 : Int) ≤ _ * _ + _
      positivity
    · exact absurd h (by simp)
  · exact absurd h (by simp)

theorem parseFloat_mant_nonneg_of_noMinus {l : List Char} {d : Dec}
    (hm : '-' ∉ l) (h : parseFloat l = some d) : 0 ≤ d.mant := by
  unfold parseFloat at h
  split at h
  · exact absurd (List.mem_cons_self _ _) hm
  · exact parseFloatCore_mant_nonneg h
  · exact parseFloatCore_mant_nonneg h

theorem parseIntCore_nonneg {l : List Char} {n : Int}
    (h : parseIntCore l = some n) : 0 ≤ n := by
  unfold parseIntCore at h
  split at h
  · injection h with h'
    subst h'
    exact Int.natCast_nonneg _
  · exact absurd h (by simp)

theorem parseInt_nonneg_of_noMinus {l : List Char} {n : Int}
    (hm : '-' ∉ l) (h : parseInt l = some n) : 0 ≤ n := by
  unfold parseInt at h
  split at h
  · exact absurd (List.mem_cons_self _ _) hm
  · exact parseIntCore_nonneg h
  · exact parseIntCore_nonneg h

theorem Dec.toRat_nonneg {d : Dec} (h : 0 ≤ d.mant) : 0 ≤ d.toRat := by
  unfold Dec.toRat
  exact div_nonneg (by exact_mod_cast h) (by positivity)

end ParseLemmas

section SearchLemmas

theorem mem_of_getLast?_eq_some {α : Type} {l : List α} {a : α}
    (h : l.getLast? = some a) : a ∈ l := by
  have hx : a ∈ l.getLast? := by rw [h]; rfl
  obtain ⟨hne, heq⟩ := List.mem_getLast?_eq_getLast hx
  rw [heq]
  exact List.getLast_mem hne

theorem Main.matchAt_none_of_ne {x : Char} {l : List Char} (hx : x ≠ '(') :
    Main.matchAt (x :: l) = none := by
  unfold Main.matchAt
  split
  · next heq =>
    injection heq with h1 _
    exact absurd h1 hx
  · rfl

theorem Main.searchCode_append_of_noParen {c1 c2 c3 : Char} (rest : List Char)
    (h1 : isWordChar c1 = true) (h2 : isWordChar c2 = true)
    (h3 : isWordChar c3 = true) :
    ∀ (pre : List Char), '(' ∉ pre →
      Main.searchCode (pre ++ '(' :: c1 :: c2 :: c3 :: ')' :: rest) =
        some [c1, c2, c3] := by
  intro pre
  induction pre with
  | nil =>
    intro _
    simp [Main.searchCode, Main.matchAt, h1, h2, h3]
  | cons x pre' ih =>
    intro hp
    have hx : x ≠ '(' := fun hh => hp (hh ▸ List.mem_cons_self _ _)
    simp only [List.cons_append, Main.searchCode]
    rw [Main.matchAt_none_of_ne hx]
    exact ih (fun hm => hp (List.mem_cons_of_mem _ hm))

theorem Main.searchCode_append_ne_none {c1 c2 c3 : Char} (rest : List Char)
    (h1 : isWordChar c1 = true) (h2 : isWordChar c2 = true)
    (h3 : isWordChar c3 = true) :
    ∀ (pre : List Char),
      Main.searchCode (pre ++ '(' :: c1 :: c2 :: c3 :: ')' :: rest) ≠ none := by
  intro pre
  induction pre with
  | nil =>
    simp [Main.searchCode, Main.matchAt, h1, h2, h3]
  | cons x pre' ih =>
    simp only [List.cons_append, Main.searchCode]
    cases hm : Main.matchAt (x :: (pre' ++ '(' :: c1 :: c2 :: c3 :: ')' :: rest)) with
    | some r => simp
    | none => simpa using ih

theorem Main.matchAt_some {l r : List Char} (h : Main.matchAt l = some r) :
    ∃ c1 c2 c3 rest, l = '(' :: c1 :: c2 :: c3 :: ')' :: rest ∧
      isWordChar c1 = true ∧ isWordChar c2 = true ∧ isWordChar c3 = true := by
  unfold Main.matchAt at h
  split at h
  · next c1 c2 c3 tail =>
    split at h
    · next hcond =>
      rw [Bool.and_eq_true, Bool.and_eq_true] at hcond
      exact ⟨c1, c2, c3, tail, rfl, hcond.1.1, hcond.1.2, hcond.2⟩
    · exact absurd h (by simp)
  · exact absurd h (by simp)

theorem Main.searchCode_some_decomp :
    ∀ (l r : List Char), Main.searchCode l = some r →
      ∃ pre c1 c2 c3 rest, l = pre ++ '(' :: c1 :: c2 :: c3 :: ')' :: rest ∧
        isWordChar c1 = true ∧ isWordChar c2 = true ∧ isWordChar c3 = true := by
  intro l
  induction l with
  | nil => intro r h; simp [Main.searchCode] at h
  | cons c t ih =>
    intro r h
    simp only [Main.searchCode] at h
    cases hm : Main.matchAt (c :: t) with
    | some r' =>
      obtain ⟨c1, c2, c3, rest, heq, h1, h2, h3⟩ := Main.matchAt_some hm
      exact ⟨[], c1, c2, c3, rest, heq, h1, h2, h3⟩
    | none =>
      rw [hm] at h
      dsimp only at h
      obtain ⟨pre, c1, c2, c3, rest, heq, h1, h2, h3⟩ := ih r h
      exact ⟨c :: pre, c1, c2, c3, rest, by rw [heq]; rfl, h1, h2, h3⟩

end SearchLemmas

section PathLemmas

theorem Main.fetchPriceVal_none_of_noDigits {s : String}
    (h : ∀ c ∈ s.data, c.isDigit = false) : Main.fetchPriceVal s = none := by
  unfold Main.fetchPriceVal
  exact parseFloat_none_of_noDigits (fun c hc => h c (List.mem_of_mem_filter hc))

theorem Main.fetchPriceVal_nonneg {s : String} {d : Dec}
    (h : Main.fetchPriceVal s = some d) : 0 ≤ d.toRat := by
  unfold Main.fetchPriceVal at h
  refine Dec.toRat_nonneg (parseFloat_mant_nonneg_of_noMinus ?_ h)
  intro hmem
  have := List.of_mem_filter hmem
  simp at this

theorem Main1.ethPriceVal_eq {s : String} :
    Main1.ethPriceVal s =
      match (splitWs s.data).getLast? with
      | none => none
      | some tok => parseFloat (tok.filter (fun c => c != ',')) := by
  unfold Main1.ethPriceVal Main1.ethPrice
  cases (splitWs s.data).getLast? with
  | none => rfl
  | some tok =>
    dsimp only
    cases parseFloat (tok.filter (fun c => c != ',')) <;> rfl

theorem Main1.ethPriceVal_none_of_noDigits {s : String}
    (h : ∀ c ∈ s.data, c.isDigit = false) : Main1.ethPriceVal s = none := by
  rw [Main1.ethPriceVal_eq]
  cases hl : (splitWs s.data).getLast? with
  | none => rfl
  | some tok =>
    have htok : ∀ c ∈ tok, c.isDigit = false := fun c hc =>
      h c (mem_of_mem_splitWs (mem_of_getLast?_eq_some hl) hc)
    exact parseFloat_none_of_noDigits
      (fun c hc => htok c (List.mem_of_mem_filter hc))

theorem Main1.ethPriceVal_nonneg {s : String} {d : Dec}
    (hm : '-' ∉ s.data) (h : Main1.ethPriceVal s = some d) : 0 ≤ d.toRat := by
  rw [Main1.ethPriceVal_eq] at h
  cases hl : (splitWs s.data).getLast? with
  | none => rw [hl] at h; exact absurd h (by simp)
  | some tok =>
    rw [hl] at h
    refine Dec.toRat_nonneg (parseFloat_mant_nonneg_of_noMinus ?_ h)
    intro hmem
    exact hm (mem_of_mem_splitWs (mem_of_getLast?_eq_some hl)
      (List.mem_of_mem_filter hmem))

theorem Main1.kenPriceVal_eq {s : String} :
    Main1.kenPriceVal s =
      parseFloat (pyStrip ((removeUSD s.data).filter (fun c => c != ','))) := by
  unfold Main1.kenPriceVal Main1.kenPrice
  cases parseFloat (pyStrip ((removeUSD s.data).filter (fun c => c != ','))) <;> rfl

theorem Main1.kenPriceVal_none_of_noDigits {s : String}
    (h : ∀ c ∈ s.data, c.isDigit = false) : Main1.kenPriceVal s = none := by
  rw [Main1.kenPriceVal_eq]
  refine parseFloat_none_of_noDigits (fun c hc => h c ?_)
  exact mem_of_mem_removeUSD (List.mem_of_mem_filter (mem_of_mem_pyStrip hc))

theorem Main1.kenPriceVal_nonneg {s : String} {d : Dec}
    (hm : '-' ∉ s.data) (h : Main1.kenPriceVal s = some d) : 0 ≤ d.toRat := by
  rw [Main1.kenPriceVal_eq] at h
  refine Dec.toRat_nonneg (parseFloat_mant_nonneg_of_noMinus ?_ h)
  intro hmem
  exact hm (mem_of_mem_removeUSD (List.mem_of_mem_filter (mem_of_mem_pyStrip hmem)))

theorem Main1.ethStopsVal_eq {s : String} :
    Main1.ethStopsVal s =
      match splitWs s.data with
      | [] => none
      | tok :: _ => parseInt tok := by
  unfold Main1.ethStopsVal Main1.ethStops
  cases splitWs s.data with
  | nil => rfl
  | cons tok r =>
    dsimp only
    cases parseInt tok <;> rfl

theorem Main1.ethStopsVal_nonneg {s : String} {n : Int}
    (hm : '-' ∉ s.data) (h : Main1.ethStopsVal s = some n) : 0 ≤ n := by
  rw [Main1.ethStopsVal_eq] at h
  cases hl : splitWs s.data with
  | nil => rw [hl] at h; exact absurd h (by simp)
  | cons tok r =>
    rw [hl] at h
    refine parseInt_nonneg_of_noMinus ?_ h
    intro hmem
    exact hm (mem_of_mem_splitWs (by rw [hl]; exact List.mem_cons_self _ _) hmem)

theorem Main1.kenStopsVal_eq {s : String} :
    Main1.kenStopsVal s =
      if strContains s "Non-stop" then some 0
      else
        match splitWs s.data with
        | [] => none
        | tok :: _ => parseInt tok := by
  unfold Main1.kenStopsVal Main1.kenStops
  split
  · rfl
  · cases splitWs s.data with
    | nil => rfl
    | cons tok r =>
      dsimp only
      cases parseInt tok <;> rfl

theorem Main1.kenStopsVal_nonneg {s : String} {n : Int}
    (hm : '-' ∉ s.data) (h : Main1.kenStopsVal s = some n) : 0 ≤ n := by
  rw [Main1.kenStopsVal_eq] at h
  split at h
  · injection h with h'
    subst h'
    exact le_refl 0
  · cases hl : splitWs s.data with
    | nil => rw [hl] at h; exact absurd h (by simp)
    | cons tok r =>
      rw [hl] at h
      refine parseInt_nonneg_of_noMinus ?_ h
      intro hmem
      exact hm (mem_of_mem_splitWs (by rw [hl]; exact List.mem_cons_self _ _) hmem)

end PathLemmas

section RegistryLemmas

theorem Main1.lookupFunc_ne_ethiopian {name : String} {tag : Main1.AdapterTag}
    (h : Main1.lookupFunc name = some tag) : tag ≠ .ethiopian := by
  unfold Main1.lookupFunc at h
  cases hf : Main1.AIRLINE_FUNCS.find? (fun p => p.1 == name) with
  | none => rw [hf] at h; exact absurd h (by simp)
  | some p =>
    rw [hf] at h
    have hp2 : p.2 = tag := by
      injection h
    have hp : p ∈ Main1.AIRLINE_FUNCS := List.mem_of_find?_eq_some hf
    have hall : ∀ q ∈ Main1.AIRLINE_FUNCS, q.2 ≠ Main1.AdapterTag.ethiopian := by
      decide
    exact hp2 ▸ hall p hp

theorem Main1.lookupFunc_eq_none {name : String}
    (h : name ∉ Main1.AIRLINE_FUNCS.map Prod.fst) : Main1.lookupFunc name = none := by
  unfold Main1.lookupFunc
  rw [List.find?_eq_none.mpr]
  · rfl
  · intro p hp hbeq
    have : p.1 = name := by simpa using hbeq
    exact h (this ▸ List.mem_map_of_mem Prod.fst hp)

theorem Main1.stepAirline_invoked {r : Main1.RouteJson} {a : String}
    {page : Main1.Page} {tag : Main1.AdapterTag}
    (h : tag ∈ (Main1.stepAirline r a page).invoked) :
    Main1.lookupFunc a = some tag := by
  unfold Main1.stepAirline at h
  cases hl : Main1.lookupFunc a with
  | none => rw [hl] at h; simp at h
  | some t =>
    rw [hl] at h
    dsimp only at h
    cases hr : (Main1.applyAdapter t r page).result with
    | error e =>
      rw [hr] at h
      dsimp only at h
      cases hid : r.id with
      | some i => rw [hid] at h; simp at h; rw [h]
      | none => rw [hid] at h; simp at h; rw [h]
    | ok quotes =>
      rw [hr] at h
      dsimp only at h
      cases hm : (quotes.take 3).mapM (fun q => do
          let o ← getField r.origin
          let d ← getField r.dest
          pure (⟨o ++ "-" ++ d, a, q.price, q.stops, q.duration⟩ : Main1.CsvRow)) with
      | ok rows => rw [hm] at h; simp at h; rw [h]
      | error e =>
        rw [hm] at h
        dsimp only at h
        cases hid : r.id with
        | some i => rw [hid] at h; simp at h; rw [h]
        | none => rw [hid] at h; simp at h; rw [h]

theorem Main1.stepAirline_logs {r : Main1.RouteJson} {a : String}
    {page : Main1.Page} {e : LogEvent}
    (h : e ∈ (Main1.stepAirline r a page).logs) :
    e = .skipMsg a ∨ e = .errMsg a := by
  unfold Main1.stepAirline at h
  cases hl : Main1.lookupFunc a with
  | none => rw [hl] at h; simp at h; exact Or.inl h
  | some t =>
    rw [hl] at h
    dsimp only at h
    cases hr : (Main1.applyAdapter t r page).result with
    | error e' =>
      rw [hr] at h
      dsimp only at h
      cases hid : r.id with
      | some i => rw [hid] at h; simp at h; exact Or.inr h
      | none => rw [hid] at h; simp at h
    | ok quotes =>
      rw [hr] at h
      dsimp only at h
      cases hm : (quotes.take 3).mapM (fun q => do
          let o ← getField r.origin
          let d ← getField r.dest
          pure (⟨o ++ "-" ++ d, a, q.price, q.stops, q.duration⟩ : Main1.CsvRow)) with
      | ok rows => rw [hm] at h; simp at h
      | error e' =>
        rw [hm] at h
        dsimp only at h
        cases hid : r.id with
        | some i => rw [hid] at h; simp at h; exact Or.inr h
        | none => rw [hid] at h; simp at h

end RegistryLemmas

section RunLemmas

theorem Main1.stepAirlines_invoked_ne_eth {r : Main1.RouteJson} {env : Nat → Main1.Page} :
    ∀ (as : List String) (k : Nat) {tag : Main1.AdapterTag},
      tag ∈ (Main1.stepAirlines r env as k).1.invoked → tag ≠ .ethiopian := by
  intro as
  induction as with
  | nil => intro k tag h; simp [Main1.stepAirlines] at h
  | cons a rest ih =>
    intro k tag h
    simp only [Main1.stepAirlines] at h
    cases hs : (Main1.stepAirline r a (env k)).err with
    | some e =>
      rw [hs] at h
      dsimp only at h
      exact Main1.lookupFunc_ne_ethiopian (Main1.stepAirline_invoked h)
    | none =>
      rw [hs] at h
      dsimp only at h
      rcases List.mem_append.mp h with h' | h'
      · exact Main1.lookupFunc_ne_ethiopian (Main1.stepAirline_invoked h')
      · exact ih _ h'

theorem Main1.stepAirlines_logs_ne_noData {r : Main1.RouteJson} {env : Nat → Main1.Page} :
    ∀ (as : List String) (k : Nat) {e : LogEvent},
      e ∈ (Main1.stepAirlines r env as k).1.logs → e ≠ .noData := by
  intro as
  induction as with
  | nil => intro k e h; simp [Main1.stepAirlines] at h
  | cons a rest ih =>
    intro k e h
    simp only [Main1.stepAirlines] at h
    cases hs : (Main1.stepAirline r a (env k)).err with
    | some e' =>
      rw [hs] at h
      dsimp only at h
      rcases Main1.stepAirline_logs h with h' | h' <;> (rw [h']; intro hc; cases hc)
    | none =>
      rw [hs] at h
      dsimp only at h
      rcases List.mem_append.mp h with h' | h'
      · rcases Main1.stepAirline_logs h' with h'' | h'' <;> (rw [h'']; intro hc; cases hc)
      · exact ih _ h'

theorem Main1.runRoutes_invoked_ne_eth {env : Nat → Main1.Page} :
    ∀ (rs : List Main1.RouteJson) (k : Nat) {tag : Main1.AdapterTag},
      tag ∈ (Main1.runRoutes env rs k).1.invoked → tag ≠ .ethiopian := by
  intro rs
  induction rs with
  | nil => intro k tag h; simp [Main1.runRoutes] at h
  | cons r rest ih =>
    intro k tag h
    simp only [Main1.runRoutes] at h
    cases ha : r.airlines with
    | none => rw [ha] at h; simp at h
    | some as =>
      rw [ha] at h
      dsimp only at h
      cases hs : (Main1.stepAirlines r env as k).1.err with
      | some e =>
        rw [hs] at h
        dsimp only at h
        exact Main1.stepAirlines_invoked_ne_eth as k h
      | none =>
        rw [hs] at h
        dsimp only at h
        rcases List.mem_append.mp h with h' | h'
        · exact Main1.stepAirlines_invoked_ne_eth as k h'
        · exact ih _ h'

theorem Main1.runRoutes_logs_ne_noData {env : Nat → Main1.Page} :
    ∀ (rs : List Main1.RouteJson) (k : Nat) {e : LogEvent},
      e ∈ (Main1.runRoutes env rs k).1.logs → e ≠ .noData := by
  intro rs
  induction rs with
  | nil => intro k e h; simp [Main1.runRoutes] at h
  | cons r rest ih =>
    intro k e h
    simp only [Main1.runRoutes] at h
    cases ha : r.airlines with
    | none => rw [ha] at h; simp at h
    | some as =>
      rw [ha] at h
      dsimp only at h
      cases hs : (Main1.stepAirlines r env as k).1.err with
      | some e' =>
        rw [hs] at h
        dsimp only at h
        exact Main1.stepAirlines_logs_ne_noData as k h
      | none =>
        rw [hs] at h
        dsimp only at h
        rcases List.mem_append.mp h with h' | h'
        · exact Main1.stepAirlines_logs_ne_noData as k h'
        · exact ih _ h'

theorem Main1.wfRoute_fields {r : Main1.RouteJson} (h : Main1.wfRoute r = true) :
    (∃ i, r.id = some i) ∧ (∃ o, r.origin = some o) ∧ (∃ d, r.dest = some d) ∧
    (∃ dep ds, r.depart = some (dep :: ds)) ∧ (∃ rt, r.ret = some rt) ∧
    (∃ n, r.paxAdults = some n) := by
  unfold Main1.wfRoute at h
  simp only [Bool.and_eq_true] at h
  obtain ⟨⟨⟨⟨⟨h1, h2⟩, h3⟩, h4⟩, h5⟩, h6⟩ := h
  refine ⟨Option.isSome_iff_exists.mp h1, Option.isSome_iff_exists.mp h2,
    Option.isSome_iff_exists.mp h3, ?_, Option.isSome_iff_exists.mp h5,
    Option.isSome_iff_exists.mp h6⟩
  cases hd : r.depart with
  | none => rw [hd] at h4; exact absurd h4 (by simp)
  | some l =>
    cases l with
    | nil => rw [hd] at h4; exact absurd h4 (by simp)
    | cons dep ds => exact ⟨dep, ds, rfl⟩

theorem Main1.search_ethiopian_timeout {r : Main1.RouteJson} {page : Main1.Page}
    (hwf : Main1.wfRoute r = true) (ht : page.timeout = true) :
    (Main1.search_ethiopian r page).result = .error .timeoutErr := by
  obtain ⟨⟨i, hi⟩, ⟨o, ho⟩, ⟨d, hd⟩, ⟨dep, ds, hds⟩, ⟨rt, hrt⟩, ⟨n, hn⟩⟩ :=
    Main1.wfRoute_fields hwf
  unfold Main1.search_ethiopian
  rw [ho, hd, hds, hrt, hn, ht]
  rfl

theorem Main1.search_kenya_timeout {r : Main1.RouteJson} {page : Main1.Page}
    (hwf : Main1.wfRoute r = true) (ht : page.timeout = true) :
    (Main1.search_kenya r page).result = .error .timeoutErr := by
  obtain ⟨⟨i, hi⟩, ⟨o, ho⟩, ⟨d, hd⟩, ⟨dep, ds, hds⟩, ⟨rt, hrt⟩, ⟨n, hn⟩⟩ :=
    Main1.wfRoute_fields hwf
  unfold Main1.search_kenya
  rw [ho, hd, hds, hrt, ht]
  rfl

theorem Main1.stepAirline_handled {r : Main1.RouteJson} {a : String}
    {tag : Main1.AdapterTag} {page : Main1.Page} {i : String} {e : PyErr}
    (hid : r.id = some i) (hl : Main1.lookupFunc a = some tag)
    (herr : (Main1.applyAdapter tag r page).result = .error e) :
    Main1.stepAirline r a page = ⟨[], [.errMsg a], [tag], none⟩ := by
  unfold Main1.stepAirline
  rw [hl]
  dsimp only
  rw [herr, hid]

theorem Main1.stepAirline_skip {r : Main1.RouteJson} {a : String} {page : Main1.Page}
    (hl : Main1.lookupFunc a = none) :
    Main1.stepAirline r a page = ⟨[], [.skipMsg a], [], none⟩ := by
  unfold Main1.stepAirline
  rw [hl]

theorem Main1.run_quit_iff (routes : List Main1.RouteJson) (env : Nat → Main1.Page) :
    (Main1.run routes env).quitCount =
      if (Main1.run routes env).uncaught = none then 1 else 0 := by
  unfold Main1.run
  cases (Main1.runRoutes env routes 0).1.err <;> simp

end RunLemmas

section MainLoopLemmas

theorem Main.cityDates_rows {city code : String} {pax : Int} {env : Nat → Main.FetchPage} :
    ∀ (ds : List String) (k : Nat) {row : Main.MainRow},
      row ∈ (Main.cityDates city code pax env ds k).rows →
      row.city = city ∧ row.seats = pax := by
  intro ds
  induction ds with
  | nil => intro k row h; simp [Main.cityDates] at h
  | cons dep ds' ih =>
    intro k row h
    simp only [Main.cityDates] at h
    cases hf : Main.fetch_price (env k) with
    | ok pr =>
      obtain ⟨airline, price⟩ := pr
      rw [hf] at h
      dsimp only at h
      rcases List.mem_cons.mp h with h' | h'
      · rw [h']
        exact ⟨rfl, rfl⟩
      · exact ih _ h'
    | error e =>
      rw [hf] at h
      dsimp only at h
      exact ih _ h

theorem Main.cityDates_urls {city code : String} {pax : Int} {env : Nat → Main.FetchPage} :
    ∀ (ds : List String) (k : Nat) {u : String},
      u ∈ (Main.cityDates city code pax env ds k).urls →
      ∃ dep ∈ ds, u = Main.make_url code dep Config.RETURN_DATE pax := by
  intro ds
  induction ds with
  | nil => intro k u h; simp [Main.cityDates] at h
  | cons dep ds' ih =>
    intro k u h
    simp only [Main.cityDates] at h
    cases hf : Main.fetch_price (env k) with
    | ok pr =>
      obtain ⟨airline, price⟩ := pr
      rw [hf] at h
      dsimp only at h
      rcases List.mem_cons.mp h with h' | h'
      · exact ⟨dep, List.mem_cons_self _ _, h'⟩
      · obtain ⟨d', hd', hu⟩ := ih _ h'
        exact ⟨d', List.mem_cons_of_mem _ hd', hu⟩
    | error e =>
      rw [hf] at h
      dsimp only at h
      rcases List.mem_cons.mp h with h' | h'
      · exact ⟨dep, List.mem_cons_self _ _, h'⟩
      · obtain ⟨d', hd', hu⟩ := ih _ h'
        exact ⟨d', List.mem_cons_of_mem _ hd', hu⟩

theorem Main.mainLoop_rows {env : Nat → Main.FetchPage} :
    ∀ (cities : List (String × Int)) (k : Nat) {row : Main.MainRow},
      row ∈ (Main.mainLoop env cities k).rows →
      ∃ hc : Int, (row.city, hc) ∈ cities ∧ row.seats = min hc 9 ∧
        strContains row.city "Accra" = false := by
  intro cities
  induction cities with
  | nil => intro k row h; simp [Main.mainLoop] at h
  | cons ch rest ih =>
    obtain ⟨city, hc⟩ := ch
    intro k row h
    simp only [Main.mainLoop] at h
    cases hAc : strContains city "Accra" with
    | true =>
      rw [hAc] at h
      simp only [if_pos rfl] at h
      obtain ⟨hc', hmem, hseat, hacc⟩ := ih _ h
      exact ⟨hc', List.mem_cons_of_mem _ hmem, hseat, hacc⟩
    | false =>
      rw [hAc] at h
      simp only [Bool.false_eq_true, if_false] at h
      cases hcc : Main.clean_code city with
      | none =>
        rw [hcc] at h
        dsimp only at h
        obtain ⟨hc', hmem, hseat, hacc⟩ := ih _ h
        exact ⟨hc', List.mem_cons_of_mem _ hmem, hseat, hacc⟩
      | some code =>
        rw [hcc] at h
        dsimp only at h
        rcases List.mem_append.mp h with h' | h'
        · obtain ⟨hcity, hseat⟩ := Main.cityDates_rows _ _ h'
          refine ⟨hc, ?_, ?_, ?_⟩
          · rw [hcity]; exact List.mem_cons_self _ _
          · exact hseat
          · rw [hcity]; exact hAc
        · obtain ⟨hc', hmem, hseat, hacc⟩ := ih _ h'
          exact ⟨hc', List.mem_cons_of_mem _ hmem, hseat, hacc⟩

theorem Main.mainLoop_urls {env : Nat → Main.FetchPage} :
    ∀ (cities : List (String × Int)) (k : Nat) {u : String},
      u ∈ (Main.mainLoop env cities k).urls →
      ∃ city hc code dep, (city, hc) ∈ cities ∧ Main.clean_code city = some code ∧
        dep ∈ Config.DEPARTURE_DATES ∧
        u = Main.make_url code dep Config.RETURN_DATE (min hc 9) := by
  intro cities
  induction cities with
  | nil => intro k u h; simp [Main.mainLoop] at h
  | cons ch rest ih =>
    obtain ⟨city, hc⟩ := ch
    intro k u h
    simp only [Main.mainLoop] at h
    cases hAc : strContains city "Accra" with
    | true =>
      rw [hAc] at h
      simp only [if_pos rfl] at h
      obtain ⟨c', hc', cd', d', hmem, hrest⟩ := ih _ h
      exact ⟨c', hc', cd', d', List.mem_cons_of_mem _ hmem, hrest⟩
    | false =>
      rw [hAc] at h
      simp only [Bool.false_eq_true, if_false] at h
      cases hcc : Main.clean_code city with
      | none =>
        rw [hcc] at h
        dsimp only at h
        obtain ⟨c', hc', cd', d', hmem, hrest⟩ := ih _ h
        exact ⟨c', hc', cd', d', List.mem_cons_of_mem _ hmem, hrest⟩
      | some code =>
        rw [hcc] at h
        dsimp only at h
        rcases List.mem_append.mp h with h' | h'
        · obtain ⟨dep, hdep, hu⟩ := Main.cityDates_urls _ _ h'
          exact ⟨city, hc, code, dep, List.mem_cons_self _ _, hcc, hdep, hu⟩
        · obtain ⟨c', hc', cd', d', hmem, hrest⟩ := ih _ h'
          exact ⟨c', hc', cd', d', List.mem_cons_of_mem _ hmem, hrest⟩

theorem Main.mainLoop_skip {env : Nat → Main.FetchPage} {city : String} {hc : Int}
    {rest : List (String × Int)} {k : Nat}
    (hcode : Main.clean_code city = none)
    (hAc : strContains city "Accra" = false) :
    Main.mainLoop env ((city, hc) :: rest) k =
      ⟨(Main.mainLoop env rest k).rows, (Main.mainLoop env rest k).urls,
       .warnCity city :: (Main.mainLoop env rest k).logs,
       (Main.mainLoop env rest k).kEnd⟩ := by
  simp only [Main.mainLoop, hAc, Bool.false_eq_true, if_false, hcode]

theorem Main.main_rows_eq (cities : List (String × Int)) (env : Nat → Main.FetchPage) :
    (Main.main cities env).rows = (Main.mainLoop env cities 0).rows := by
  unfold Main.main
  dsimp only
  split <;> rfl

theorem Main.main_urls_eq (cities : List (String × Int)) (env : Nat → Main.FetchPage) :
    (Main.main cities env).urls = (Main.mainLoop env cities 0).urls := by
  unfold Main.main
  dsimp only
  split <;> rfl

end MainLoopLemmas

section Fixtures

/-- A routes.json route carrying every key the code reads, targeting the
one registered network adapter. -/
def rWF : Main1.RouteJson :=
  ⟨some "r1", some "jnb", some "acc", some ["2025-07-06"], some "2025-07-09",
   some 9, some ["Kenya Airways"]⟩

/-- A routes.json route whose object lacks the "airlines" key. -/
def rNoAirlines : Main1.RouteJson :=
  ⟨some "r2", some "jnb", some "acc", some ["2025-07-06"], some "2025-07-09",
   some 9, none⟩

/-- A route whose roster headcount (50) exceeds the carrier cap of 9. -/
def r50 : Main1.RouteJson :=
  ⟨some "r3", some "jnb", some "acc", some ["2025-07-06"], some "2025-07-09",
   some 50, some []⟩

/-- A result page whose bounded wait for the results container times out. -/
def pageTimeout : Main1.Page := ⟨true, []⟩

/-- An environment in which every results wait times out. -/
def envTimeout : Nat → Main1.Page := fun _ => pageTimeout

/-- A result page with one card whose scraped price text carries a minus
sign. -/
def pageNeg : Main1.Page :=
  ⟨false, [⟨some "USD -850", some "1 Stop", some "14h 25m"⟩]⟩

/-- A Skyscanner listing page whose price-span wait times out. -/
def fpTimeout : Main.FetchPage := ⟨true, "", false, ""⟩

/-- A Skyscanner listing page that renders one ordinary quote. -/
def envOK : Nat → Main.FetchPage := fun _ => ⟨false, "$850.00", false, "Delta"⟩

/-- The quote row main.py builds from `envOK` for the Lagos roster entry on
the first departure date. -/
def rowLagos : Main.MainRow :=
  ⟨"Lagos (LOS)", "Delta", "2025-07-06", "2025-07-09", "WebEco", 9, ⟨85000, 2⟩⟩

/-- Spec-side predicate for C6: does the label contain a parenthesized
3-letter code, letters taken literally as alphabetic characters?  (The
code's regex `\w` also accepts digits and the underscore.) -/
def hasParenAlpha3 : List Char → Bool
  | '(' :: c1 :: c2 :: c3 :: ')' :: t =>
    (c1.isAlpha && c2.isAlpha && c3.isAlpha) ||
      hasParenAlpha3 (c1 :: c2 :: c3 :: ')' :: t)
  | _ :: t => hasParenAlpha3 t
  | [] => false

end Fixtures

/-- Claim C1, counterexample: the price text "$1,234.50" is not normalized to
1234.50 by the two main1.py paths; both raise ValueError because the dollar
sign survives their replacements, so not every price-parsing path yields the
claimed decimal value. -/
theorem claim1_counterexample :
    Main1.ethPriceVal "$1,234.50" = none ∧ Main1.kenPriceVal "$1,234.50" = none :=
  ⟨rfl, rfl⟩

/-- Claim C1, amended: fetch_price in main.py normalizes all three price
texts to the decimal value 1234.50; search_ethiopian and search_kenya in
main1.py normalize "1234.50" and "USD 1234.50" to 1234.50 but fail with a
parse error on "$1,234.50"; and on any price text containing no digits every
path yields a parse failure, never a silently substituted zero or null. -/
theorem claim1_theorem :
    (Main.fetchPriceVal "$1,234.50" = some ⟨123450, 2⟩ ∧
     Main.fetchPriceVal "1234.50" = some ⟨123450, 2⟩ ∧
     Main.fetchPriceVal "USD 1234.50" = some ⟨123450, 2⟩) ∧
    (Main1.ethPriceVal "1234.50" = some ⟨123450, 2⟩ ∧
     Main1.ethPriceVal "USD 1234.50" = some ⟨123450, 2⟩ ∧
     Main1.ethPriceVal "$1,234.50" = none) ∧
    (Main1.kenPriceVal "1234.50" = some ⟨123450, 2⟩ ∧
     Main1.kenPriceVal "USD 1234.50" = some ⟨123450, 2⟩ ∧
     Main1.kenPriceVal "$1,234.50" = none) ∧
    Dec.toRat ⟨123450, 2⟩ = (1234.5 : ℚ) ∧
    (∀ s : String, (∀ c ∈ s.data, c.isDigit = false) →
      Main.fetchPriceVal s = none ∧ Main1.ethPriceVal s = none ∧
      Main1.kenPriceVal s = none) := by
  refine ⟨⟨rfl, rfl, rfl⟩, ⟨rfl, rfl, rfl⟩, ⟨rfl, rfl, rfl⟩,
    by norm_num [Dec.toRat], ?_⟩
  intro s h
  exact ⟨Main.fetchPriceVal_none_of_noDigits h,
    Main1.ethPriceVal_none_of_noDigits h, Main1.kenPriceVal_none_of_noDigits h⟩

/-- Claim C1, witness: the digit-free price text "N/A" fails to parse on all
three paths. -/
theorem claim1_witness :
    Main.fetchPriceVal "N/A" = none ∧ Main1.ethPriceVal "N/A" = none ∧
    Main1.kenPriceVal "N/A" = none :=
  claim1_theorem.2.2.2.2 "N/A" (by decide)

/-- Claim C2, counterexample: search_ethiopian's stops normalization raises
ValueError on "Non-stop" (int("Non-stop")) instead of producing 0. -/
theorem claim2_counterexample : Main1.ethStopsVal "Non-stop" = none := rfl

/-- Claim C2, amended: search_kenya maps "Non-stop" to 0, "1 Stop" to 1 and
"2 Stops" to 2; search_ethiopian maps "1 Stop" to 1 and "2 Stops" to 2 but
fails with a parse error on "Non-stop". -/
theorem claim2_theorem :
    Main1.ethStopsVal "1 Stop" = some 1 ∧ Main1.ethStopsVal "2 Stops" = some 2 ∧
    Main1.ethStopsVal "Non-stop" = none ∧
    Main1.kenStopsVal "Non-stop" = some 0 ∧ Main1.kenStopsVal "1 Stop" = some 1 ∧
    Main1.kenStopsVal "2 Stops" = some 2 :=
  ⟨rfl, rfl, rfl, rfl, rfl, rfl⟩

/-- Claim C3, counterexample: when the bounded wait for the results
container times out, every adapter function lets the timeout exception
escape instead of returning an empty quote list. -/
theorem claim3_counterexample :
    (Main1.search_ethiopian rWF pageTimeout).result = .error .timeoutErr ∧
    (Main1.search_kenya rWF pageTimeout).result = .error .timeoutErr ∧
    Main.fetch_price fpTimeout = .error .timeoutErr :=
  ⟨rfl, rfl, rfl⟩

/-- Claim C3, amended: on a results-wait timeout the adapters raise; the
exception escapes the adapter function and is caught by the orchestrator's
per-call boundary, which turns the pair into zero quotes plus an error log
and continues the run. -/
theorem claim3_theorem (r : Main1.RouteJson) (page : Main1.Page)
    (fp : Main.FetchPage) (hwf : Main1.wfRoute r = true)
    (ht : page.timeout = true) (hf : fp.timeout = true) :
    (Main1.search_ethiopian r page).result = .error .timeoutErr ∧
    (Main1.search_kenya r page).result = .error .timeoutErr ∧
    Main.fetch_price fp = .error .timeoutErr ∧
    Main1.stepAirline r "Kenya Airways" page =
      ⟨[], [.errMsg "Kenya Airways"], [.kenya], none⟩ := by
  obtain ⟨⟨i, hi⟩, -⟩ := Main1.wfRoute_fields hwf
  refine ⟨Main1.search_ethiopian_timeout hwf ht,
    Main1.search_kenya_timeout hwf ht, ?_, ?_⟩
  · unfold Main.fetch_price
    rw [hf]
    rfl
  · exact Main1.stepAirline_handled hi rfl (Main1.search_kenya_timeout hwf ht)

/-- Claim C3, witness: the amended statement at a concrete well-formed route
and a timing-out page. -/
theorem claim3_witness :
    (Main1.search_ethiopian rWF pageTimeout).result = .error .timeoutErr ∧
    (Main1.search_kenya rWF pageTimeout).result = .error .timeoutErr ∧
    Main.fetch_price fpTimeout = .error .timeoutErr ∧
    Main1.stepAirline rWF "Kenya Airways" pageTimeout =
      ⟨[], [.errMsg "Kenya Airways"], [.kenya], none⟩ :=
  claim3_theorem rWF pageTimeout fpTimeout (by decide) rfl rfl

/-- Claim C4, counterexample: a main1.py run in which every adapter call
fails still truncates flight_quotes.csv to its header row at run start (an
output write) and never reports a "no data fetched" error. -/
theorem claim4_counterexample :
    (Main1.run [rWF] envTimeout).csvRows = [] ∧
    (Main1.run [rWF] envTimeout).headerWritten = true ∧
    LogEvent.noData ∉ (Main1.run [rWF] envTimeout).logs := by
  refine ⟨rfl, rfl, ?_⟩
  decide

/-- Claim C4, amended: main.py behaves as claimed — an empty quote batch at
end of run reports the "no data fetched" error and skips the workbook write;
main1.py instead truncates the CSV to its header unconditionally at run
start and never emits a "no data fetched" report. -/
theorem claim4_theorem :
    (∀ (cities : List (String × Int)) (env : Nat → Main.FetchPage),
      (Main.main cities env).rows = [] →
      (Main.main cities env).noDataErr = true ∧
      (Main.main cities env).wroteSheet = false) ∧
    (∀ (routes : List Main1.RouteJson) (env : Nat → Main1.Page),
      (Main1.run routes env).headerWritten = true ∧
      LogEvent.noData ∉ (Main1.run routes env).logs) := by
  constructor
  · intro cities env h
    unfold Main.main at h ⊢
    dsimp only at h ⊢
    split at h
    · next hcond =>
      rw [if_pos hcond]
      exact ⟨rfl, rfl⟩
    · next hcond =>
      dsimp only at h
      exact absurd h hcond
  · intro routes env
    refine ⟨rfl, ?_⟩
    intro hmem
    have hmem' : LogEvent.noData ∈ (Main1.runRoutes env routes 0).1.logs := hmem
    exact Main1.runRoutes_logs_ne_noData routes 0 hmem' rfl

/-- Claim C4, witness: the empty roster gives main.py an empty batch, the
"no data fetched" error, and no sheet write. -/
theorem claim4_witness :
    (Main.main [] envOK).noDataErr = true ∧
    (Main.main [] envOK).wroteSheet = false :=
  claim4_theorem.1 [] envOK rfl

/-- Claim C5, counterexample: in main1.py a route object without the
"airlines" key raises KeyError outside any try, the iterate phase ends
early, and driver.quit() is never called — the session is released zero
times, not exactly once. -/
theorem claim5_counterexample :
    (Main1.run [rNoAirlines] envTimeout).quitCount = 0 ∧
    (Main1.run [rNoAirlines] envTimeout).uncaught = some .keyErr :=
  ⟨rfl, rfl⟩

/-- Claim C5, amended: main.py releases the browser session exactly once on
every path (try/finally); main1.py releases it exactly once only when the
iterate phase finishes without an uncaught exception, and zero times
otherwise — there is no try/finally in run. -/
theorem claim5_theorem :
    (∀ (cities : List (String × Int)) (env : Nat → Main.FetchPage),
      (Main.main cities env).quitCount = 1) ∧
    (∀ (routes : List Main1.RouteJson) (env : Nat → Main1.Page),
      (Main1.run routes env).quitCount =
        if (Main1.run routes env).uncaught = none then 1 else 0) := by
  constructor
  · intro cities env
    unfold Main.main
    dsimp only
    split <;> rfl
  · intro routes env
    exact Main1.run_quit_iff routes env

/-- Claim C6, counterexample: the label "Lagos (L01)" contains no
parenthesized 3-letter code, yet clean_code returns "l01" rather than the
"no code" value, because the regex accepts digits via `\w`. -/
theorem claim6_counterexample :
    hasParenAlpha3 "Lagos (L01)".data = false ∧
    Main.clean_code "Lagos (L01)" = some "l01" :=
  ⟨rfl, rfl⟩

/-- Claim C6, amended: for labels `Name (XXX)` whose name part contains no
opening parenthesis and whose XXX are three word characters (letters,
digits or underscore — not only letters), clean_code returns the lowercased
code; clean_code returns the "no code" value exactly when no parenthesized
3-word-character group occurs anywhere in the label; and a city whose label
yields the "no code" value is skipped with a warning while the loop
continues with the remaining cities. -/
theorem claim6_theorem :
    (∀ (pre : List Char) (c1 c2 c3 : Char) (rest : List Char),
      '(' ∉ pre → isWordChar c1 = true → isWordChar c2 = true →
      isWordChar c3 = true →
      Main.clean_code ⟨pre ++ '(' :: c1 :: c2 :: c3 :: ')' :: rest⟩ =
        some ⟨[c1.toLower, c2.toLower, c3.toLower]⟩) ∧
    (∀ l : List Char,
      Main.clean_code ⟨l⟩ = none ↔
      ¬ ∃ pre c1 c2 c3 rest, l = pre ++ '(' :: c1 :: c2 :: c3 :: ')' :: rest ∧
        isWordChar c1 = true ∧ isWordChar c2 = true ∧ isWordChar c3 = true) ∧
    (∀ (env : Nat → Main.FetchPage) (city : String) (hc : Int)
       (rest : List (String × Int)) (k : Nat),
      Main.clean_code city = none → strContains city "Accra" = false →
      Main.mainLoop env ((city, hc) :: rest) k =
        ⟨(Main.mainLoop env rest k).rows, (Main.mainLoop env rest k).urls,
         .warnCity city :: (Main.mainLoop env rest k).logs,
         (Main.mainLoop env rest k).kEnd⟩) := by
  refine ⟨?_, ?_, ?_⟩
  · intro pre c1 c2 c3 rest hp h1 h2 h3
    unfold Main.clean_code
    rw [show (⟨pre ++ '(' :: c1 :: c2 :: c3 :: ')' :: rest⟩ : String).data =
      pre ++ '(' :: c1 :: c2 :: c3 :: ')' :: rest from rfl]
    rw [Main.searchCode_append_of_noParen rest h1 h2 h3 pre hp]
    rfl
  · intro l
    constructor
    · intro hnone hex
      obtain ⟨pre, c1, c2, c3, rest, heq, h1, h2, h3⟩ := hex
      apply Main.searchCode_append_ne_none rest h1 h2 h3 pre
      have hsc : Main.searchCode l = none := Option.map_eq_none'.mp hnone
      rw [heq] at hsc
      exact hsc
    · intro hnex
      cases hs : Main.searchCode l with
      | none =>
        unfold Main.clean_code
        rw [show (⟨l⟩ : String).data = l from rfl, hs]
        rfl
      | some r =>
        obtain ⟨pre, c1, c2, c3, rest, heq, h1, h2, h3⟩ :=
          Main.searchCode_some_decomp l r hs
        exact absurd ⟨pre, c1, c2, c3, rest, heq, h1, h2, h3⟩ hnex
  · intro env city hc rest k hcode hAc
    exact Main.mainLoop_skip hcode hAc

/-- Claim C6, witness: the label "Johannesburg (JNB)" yields "jnb". -/
theorem claim6_witness :
    Main.clean_code ⟨"Johannesburg ".data ++ '(' :: 'J' :: 'N' :: 'B' :: ')' :: []⟩ =
      some ⟨['j', 'n', 'b']⟩ :=
  claim6_theorem.1 "Johannesburg ".data 'J' 'N' 'B' [] (by decide) rfl rfl rfl

/-- Claim C7, counterexample: main1.py applies no clamping — for a route
with pax.adults = 50, search_ethiopian navigates to a URL carrying the raw
"adults=50", not min(50, 9) = 9. -/
theorem claim7_counterexample :
    (Main1.search_ethiopian r50 pageNeg).visited =
      [Main1.eth_url "jnb" "acc" "2025-07-06" "2025-07-09" 50] ∧
    strContains (Main1.eth_url "jnb" "acc" "2025-07-06" "2025-07-09" 50)
      "adults=50" = true ∧
    strContains (Main1.eth_url "jnb" "acc" "2025-07-06" "2025-07-09" 50)
      "adults=9" = false := by
  refine ⟨rfl, by decide, by decide⟩

/-- Claim C7, amended: the clamping holds in main.py only — every quote row
records min(headcount, 9) seats and every URL main.py queries carries the
clamped passenger count; main1.py uses the raw adults value. -/
theorem claim7_theorem (cities : List (String × Int)) (env : Nat → Main.FetchPage) :
    (∀ row ∈ (Main.main cities env).rows,
      ∃ hc : Int, (row.city, hc) ∈ cities ∧ row.seats = min hc 9) ∧
    (∀ u ∈ (Main.main cities env).urls,
      ∃ city hc code dep, (city, hc) ∈ cities ∧
        Main.clean_code city = some code ∧ dep ∈ Config.DEPARTURE_DATES ∧
        u = Main.make_url code dep Config.RETURN_DATE (min hc 9)) := by
  constructor
  · intro row hrow
    rw [Main.main_rows_eq] at hrow
    obtain ⟨hc, hmem, hseat, -⟩ := Main.mainLoop_rows cities 0 hrow
    exact ⟨hc, hmem, hseat⟩
  · intro u hu
    rw [Main.main_urls_eq] at hu
    exact Main.mainLoop_urls cities 0 hu

/-- Claim C7, witness: for a Lagos roster entry with headcount 50 the
produced row carries min(50, 9) = 9 seats. -/
theorem claim7_witness :
    ∃ hc : Int, (("Lagos (LOS)" : String), hc) ∈
      [(("Lagos (LOS)" : String), (50 : Int))] ∧ (9 : Int) = min hc 9 := by
  obtain ⟨hc, hmem, hseat⟩ :=
    (claim7_theorem [("Lagos (LOS)", 50)] envOK).1 rowLagos (by decide)
  exact ⟨hc, hmem, hseat⟩

/-- Claim C8, counterexample: a scraped price text carrying a minus sign
flows through search_ethiopian into a Quote with a negative price: the code
nowhere enforces non-negativity. -/
theorem claim8_counterexample :
    (Main1.search_ethiopian rWF pageNeg).result =
      .ok [⟨⟨-850, 0⟩, 1, "14h 25m"⟩] ∧
    Dec.toRat ⟨-850, 0⟩ < 0 := by
  refine ⟨rfl, ?_⟩
  norm_num [Dec.toRat]

/-- Claim C8, amended: fetch_price prices are always non-negative (its
regex strips any minus sign); the main1.py paths produce non-negative
prices and stop counts whenever the scraped text carries no minus sign, and
can go negative otherwise. -/
theorem claim8_theorem :
    (∀ (s : String) (d : Dec), Main.fetchPriceVal s = some d → 0 ≤ d.toRat) ∧
    (∀ (s : String) (d : Dec), '-' ∉ s.data →
      Main1.ethPriceVal s = some d → 0 ≤ d.toRat) ∧
    (∀ (s : String) (n : Int), '-' ∉ s.data →
      Main1.ethStopsVal s = some n → 0 ≤ n) ∧
    (∀ (s : String) (d : Dec), '-' ∉ s.data →
      Main1.kenPriceVal s = some d → 0 ≤ d.toRat) ∧
    (∀ (s : String) (n : Int), '-' ∉ s.data →
      Main1.kenStopsVal s = some n → 0 ≤ n) :=
  ⟨fun _ _ h => Main.fetchPriceVal_nonneg h,
   fun _ _ hm h => Main1.ethPriceVal_nonneg hm h,
   fun _ _ hm h => Main1.ethStopsVal_nonneg hm h,
   fun _ _ hm h => Main1.kenPriceVal_nonneg hm h,
   fun _ _ hm h => Main1.kenStopsVal_nonneg hm h⟩

/-- Claim C8, witness: concrete instances — "$850.00" on the fetch_price
path and "1 Stop" on the ethiopian stops path are non-negative. -/
theorem claim8_witness :
    0 ≤ Dec.toRat ⟨85000, 2⟩ ∧ (0 : Int) ≤ 1 :=
  ⟨claim8_theorem.1 "$850.00" ⟨85000, 2⟩ rfl,
   claim8_theorem.2.2.1 "1 Stop" 1 (by decide) rfl⟩

/-- Claim C9: make_url always targets the fixed destination segment "acc",
and the main loop never produces a quote row for a city label containing
"Accra". -/
theorem claim9_theorem :
    (∀ (origin dep ret : String) (pax : Int), ∃ tail : String,
      Main.make_url origin dep ret pax =
        "https://www.skyscanner.com/transport/flights/" ++ origin ++ "/acc/"
          ++ tail) ∧
    (∀ (cities : List (String × Int)) (env : Nat → Main.FetchPage),
      ∀ row ∈ (Main.main cities env).rows,
        strContains row.city "Accra" = false) := by
  constructor
  · intro origin dep ret pax
    refine ⟨Main.stripDashes dep ++ "/" ++ Main.stripDashes ret ++ "/?adults="
      ++ toString pax ++ "&currency=" ++ Config.CURRENCY
      ++ "&preferdirects=false", ?_⟩
    unfold Main.make_url
    simp [String.append_assoc]
  · intro cities env row hrow
    rw [Main.main_rows_eq] at hrow
    obtain ⟨-, -, -, hacc⟩ := Main.mainLoop_rows cities 0 hrow
    exact hacc

/-- Claim C9, witness: with a roster containing both an Accra label and a
Lagos label, the produced Lagos row's city does not contain "Accra". -/
theorem claim9_witness :
    strContains rowLagos.city "Accra" = false :=
  claim9_theorem.2 [("Accra (ACC)", 5), ("Lagos (LOS)", 50)] envOK rowLagos
    (by decide)

/-- Claim C10: AIRLINE_FUNCS never maps any airline name to
search_ethiopian, so no run ever invokes it; an airline name outside the six
registered names resolves to no adapter, and such a pair is skipped with the
"no parser yet" message, zero quotes, and no error. -/
theorem claim10_theorem :
    (∀ (name : String) (tag : Main1.AdapterTag),
      Main1.lookupFunc name = some tag → tag ≠ .ethiopian) ∧
    (∀ (routes : List Main1.RouteJson) (env : Nat → Main1.Page),
      Main1.AdapterTag.ethiopian ∉ (Main1.run routes env).invoked) ∧
    (∀ name : String, name ∉ Main1.AIRLINE_FUNCS.map Prod.fst →
      Main1.lookupFunc name = none) ∧
    (∀ (r : Main1.RouteJson) (a : String) (page : Main1.Page),
      Main1.lookupFunc a = none →
      Main1.stepAirline r a page = ⟨[], [.skipMsg a], [], none⟩) := by
  refine ⟨fun _ _ h => Main1.lookupFunc_ne_ethiopian h, ?_,
    fun _ h => Main1.lookupFunc_eq_none h,
    fun _ _ _ h => Main1.stepAirline_skip h⟩
  intro routes env hmem
  have hmem' : Main1.AdapterTag.ethiopian ∈
      (Main1.runRoutes env routes 0).1.invoked := hmem
  exact Main1.runRoutes_invoked_ne_eth routes 0 hmem' rfl

/-- Claim C10, witness: "Ethiopian Airlines" is unregistered, so the pair is
skipped with the informational message, no quotes, and no error. -/
theorem claim10_witness :
    Main1.lookupFunc "Ethiopian Airlines" = none ∧
    Main1.stepAirline rWF "Ethiopian Airlines" pageTimeout =
      ⟨[], [.skipMsg "Ethiopian Airlines"], [], none⟩ := by
  have h1 := claim10_theorem.2.2.1 "Ethiopian Airlines" (by decide)
  exact ⟨h1, claim10_theorem.2.2.2 rWF "Ethiopian Airlines" pageTimeout h1⟩
